import Mathlib

/-!
Verification of the coordination core of `merge_pdf_handler.py`.

The handler's `main` runs per invoked process. All session state lives in
three well-known temp files (collection, timestamp, launcher flag), accessed
only inside critical sections of one advisory file lock. We embed the state
as a record of the three files' contents, the two critical sections as pure
state transformers, and a whole wave of N processes as a fold over the
time-ordered sequence of critical-section events.

Conventions of the embedding:
- the collection file is a list of its lines (each line in the real file is
  newline-terminated; registration appends exactly one line);
- the timestamp file is `Option (Option ℤ)`: `none` = file absent (reading
  raises), `some none` = present but not parseable by `float(...)`,
  `some (some t)` = parses to the number `t`; the code only ever writes
  `str(time.time())`, i.e. `some (some now)`;
- the launcher flag file is modelled by its presence bit (content `'1'` is
  never interpreted);
- wall-clock times are integers in milliseconds (the protocol compares
  times only through subtraction and ordering, so the exact-arithmetic
  integer-millisecond grid models the code's float-seconds clock; the
  constants `0.5` s and `0.6` s become `500` and `600`);
- filesystem existence of a path is an environment predicate
  `String → Bool`, and the availability of `C:\WINDOWS\pyw.exe` and of
  `merge_pdfs.py` are environment booleans;
- an I/O fault while reading the collection file (the `except: return` at
  the bottom of the `try` around the read) is an environment boolean
  `readFault`.
-/

namespace PdfMergeHandler

/-- Contents of the three session-state files
(`pdf_merge_collection.txt`, `pdf_merge_timestamp.txt`,
`pdf_merge_launcher.flag`); `none` means the file does not exist. -/
structure SessionState where
  collection : Option (List String)
  timestamp : Option (Option ℤ)
  launcherFlag : Bool
deriving DecidableEq, Repr

/-- The state with no session files on disk. -/
def initState : SessionState := ⟨none, none, false⟩

/-- Quiescence threshold (ms): `if time_diff < 0.5: return`. -/
def quiesceQ : ℤ := 500

/-- Debounce window (ms): `time.sleep(0.6)`. -/
def debounceD : ℤ := 600

/-- First critical section (registration), lines 34-44 of
`merge_pdf_handler.py`: append the path as one line of the collection file,
overwrite the timestamp file with the current time, delete the launcher
flag (`missing_ok=True`). -/
def register (path : String) (now : ℤ) (st : SessionState) : SessionState :=
  ⟨some (st.collection.getD [] ++ [path]), some (some now), false⟩

/-- Python `str.strip()` on the character list: drop whitespace from both
ends. -/
def trimChars (cs : List Char) : List Char :=
  (((cs.dropWhile Char.isWhitespace).reverse).dropWhile Char.isWhitespace).reverse

/-- Python `line.strip()`. (Core `String.trim` is not kernel-reducible, so
the model strips the underlying character list.) -/
def trimS (s : String) : String := String.mk (trimChars s.data)

/-- Filename component of a path, as `pathlib.Path(x).name` on a normalized
path: the characters after the last `/` or `\` separator. -/
def baseNameChars (cs : List Char) : List Char :=
  cs.foldl (fun acc c => if c = '/' ∨ c = '\\' then [] else acc ++ [c]) []

/-- Sort key of line 89: `Path(x).name.lower()` (ASCII case folding, which
agrees with Python `str.lower()` on ASCII path names). -/
def sortKey (p : String) : List Char := (baseNameChars p.data).map Char.toLower

/-- Lexicographic comparison of two character lists by code point: Python
`str.__le__` on the sort keys. -/
def lexLe : List Char → List Char → Bool
  | [], _ => true
  | _ :: _, [] => false
  | a :: as, b :: bs => if a < b then true else if b < a then false else lexLe as bs

/-- Lines 74-78: `[line.strip() for line in f if line.strip() and
Path(line.strip()).exists()]` — strip each line, keep the nonempty ones
whose path currently exists. -/
def collectExisting (ex : String → Bool) (lines : List String) : List String :=
  lines.filterMap (fun line =>
    if trimS line = "" then none
    else if ex (trimS line) then some (trimS line) else none)

/-- Lines 80-85: remove duplicates keeping the first occurrence of each
path (the `seen` set loop). -/
def dedupFirst (l : List String) : List String :=
  l.foldl (fun acc f => if f ∈ acc then acc else acc ++ [f]) []

/-- Line 89: `unique_files.sort(key=lambda x: Path(x).name.lower())` —
stable sort by case-insensitive filename. Python `list.sort` is stable, and
the stable sort by a given key is a unique function of the input, so it is
modelled by the order-preserving stable insertion sort. -/
def sortByName (l : List String) : List String :=
  l.insertionSort (fun a b => lexLe (sortKey a) (sortKey b) = true)

/-- Lines 72-89 as one function: the leader's resolution of the raw
collection snapshot. -/
def resolveFiles (ex : String → Bool) (lines : List String) : List String :=
  sortByName (dedupFirst (collectExisting ex lines))

/-- Launch environment of lines 99-104: whether `C:\WINDOWS\pyw.exe` and the
sibling `merge_pdfs.py` exist. -/
structure LaunchEnv where
  pywExists : Bool
  mergeScriptExists : Bool
deriving DecidableEq, Repr

/-- Result of the second critical section: the session state it leaves
behind, the argument list of the `subprocess.Popen` call if one was made,
and whether the launcher flag was written (leadership claimed). -/
structure CheckOutcome where
  state : SessionState
  launch : Option (List String)
  claimed : Bool
deriving DecidableEq, Repr

/-- Second critical section (leader election, resolution, cleanup, launch),
lines 50-117 of `merge_pdf_handler.py`. `readFault` injects an I/O failure
of the collection-file read (caught by the `except: return` of lines 90-91);
a missing collection file fails the same way. -/
def leaderCheck (ex : String → Bool) (env : LaunchEnv) (readFault : Bool)
    (now : ℤ) (st : SessionState) : CheckOutcome :=
  if st.launcherFlag then ⟨st, none, false⟩
  else
    match st.timestamp with
    | none => ⟨st, none, false⟩
    | some none => ⟨st, none, false⟩
    | some (some lastTime) =>
      if now - lastTime < quiesceQ then ⟨st, none, false⟩
      else
        match st.collection, readFault with
        | none, _ => ⟨⟨st.collection, st.timestamp, true⟩, none, true⟩
        | some _, true => ⟨⟨st.collection, st.timestamp, true⟩, none, true⟩
        | some lines, false =>
          let uniq := resolveFiles ex lines
          if 1 ≤ uniq.length then
            if env.pywExists && env.mergeScriptExists then
              ⟨⟨none, none, false⟩, some uniq, true⟩
            else
              ⟨⟨none, none, false⟩, none, true⟩
          else
            ⟨⟨none, none, false⟩, none, true⟩

/-- Environment of one whole run of `main`: filesystem existence at the
line-26 check and at resolution time, launch environment, whether each of
the two lock acquisitions succeeds within its 10 s timeout, the injected
collection-read fault, and the wall-clock times sampled at line 41 and
line 62. -/
structure RunEnv where
  exReg : String → Bool
  exRes : String → Bool
  launchEnv : LaunchEnv
  lockAcq1 : Bool
  lockAcq2 : Bool
  readFault : Bool
  tReg : ℤ
  tChk : ℤ

/-- Observable outcome of one run of `main`: final session state, the
launch (if any), and whether the registration critical section ran. -/
structure RunOutcome where
  state : SessionState
  launch : Option (List String)
  registered : Bool
deriving DecidableEq, Repr

/-- The whole of `main` (lines 21-129) as a function of its argument, the
environment and the initial session state. A failed lock acquisition raises
`filelock.Timeout`, caught silently at lines 119-121. -/
def mainRun (arg : Option String) (env : RunEnv) (st : SessionState) :
    RunOutcome :=
  match arg with
  | none => ⟨st, none, false⟩
  | some pathArg =>
    if env.exReg pathArg then
      if env.lockAcq1 then
        let st1 := register pathArg env.tReg st
        if env.lockAcq2 then
          let out := leaderCheck env.exRes env.launchEnv env.readFault
            env.tChk st1
          ⟨out.state, out.launch, true⟩
        else
          ⟨st1, none, true⟩
      else
        ⟨st, none, false⟩
    else
      ⟨st, none, false⟩

/-- Resolution as §4.5 of the spec words it, for comparison with
`resolveFiles`: filter the raw snapshot of path strings to those that
currently exist, deduplicate preserving first-occurrence order, sort by
case-insensitive filename. (The spec's snapshot entries are the registered
paths themselves, with no per-line stripping step.) -/
def specResolve (ex : String → Bool) (snapshot : List String) : List String :=
  sortByName (dedupFirst (snapshot.filter ex))

/-- One critical section of one coordinator instance in a wave: instance
`i` either runs its registration section or its leader-election section, at
wall-clock time `t`. The advisory lock serializes all critical sections,
so an execution of a wave is a time-ordered list of such events. -/
inductive Event where
  | reg (i : Nat) (t : ℤ)
  | chk (i : Nat) (t : ℤ)
deriving DecidableEq, Repr

/-- Wall-clock time of an event. -/
def Event.time : Event → ℤ
  | .reg _ t => t
  | .chk _ t => t

/-- Instance that runs the event. -/
def Event.idx : Event → Nat
  | .reg i _ => i
  | .chk i _ => i

/-- Whether the event is a registration section. -/
def Event.isReg : Event → Bool
  | .reg _ _ => true
  | .chk _ _ => false

/-- Accumulated observables of a wave execution: current session state,
the `subprocess.Popen` calls made so far (instance and argument list), and
the instances that wrote the launcher flag so far. -/
structure TraceState where
  st : SessionState
  launches : List (Nat × List String)
  claimants : List Nat
deriving DecidableEq, Repr

/-- Execution start: no session files, no launches, no claimants. -/
def initTrace : TraceState := ⟨⟨none, none, false⟩, [], []⟩

/-- Effect of one critical section on the accumulated observables. -/
def stepEvent (paths : Nat → String) (ex : String → Bool) (env : LaunchEnv)
    (ts : TraceState) : Event → TraceState
  | .reg i t => ⟨register (paths i) t ts.st, ts.launches, ts.claimants⟩
  | .chk i t =>
    let out := leaderCheck ex env false t ts.st
    ⟨out.state,
     ts.launches ++ (match out.launch with | some l => [(i, l)] | none => []),
     ts.claimants ++ (if out.claimed then [i] else [])⟩

/-- Execution of a whole wave: fold the serialized critical sections over
the initial empty state. -/
def runTrace (paths : Nat → String) (ex : String → Bool) (env : LaunchEnv)
    (es : List Event) : TraceState :=
  es.foldl (stepEvent paths ex env) initTrace

/-! ## Helper lemmas -/

theorem dedupFirst_loop_mem (l acc : List String) (x : String) :
    x ∈ l.foldl (fun acc f => if f ∈ acc then acc else acc ++ [f]) acc ↔
      x ∈ acc ∨ x ∈ l := by
  induction l generalizing acc with
  | nil => simp
  | cons a l ih =>
    simp only [List.foldl_cons]
    by_cases ha : a ∈ acc
    · rw [if_pos ha, ih]
      simp only [List.mem_cons]
      constructor
      · rintro (h | h)
        · exact Or.inl h
        · exact Or.inr (Or.inr h)
      · rintro (h | h | h)
        · exact Or.inl h
        · exact Or.inl (by rw [h]; exact ha)
        · exact Or.inr h
    · rw [if_neg ha, ih]
      simp only [List.mem_append, List.mem_singleton, List.mem_cons]
      tauto

theorem dedupFirst_mem (l : List String) (x : String) :
    x ∈ dedupFirst l ↔ x ∈ l := by
  unfold dedupFirst
  rw [dedupFirst_loop_mem]
  simp

theorem sortByName_perm (l : List String) : List.Perm (sortByName l) l :=
  List.perm_insertionSort _ l

theorem collectExisting_eq_filter (ex : String → Bool) (l : List String)
    (h : ∀ s ∈ l, trimS s = s ∧ s ≠ "") :
    collectExisting ex l = l.filter ex := by
  induction l with
  | nil => rfl
  | cons a l ih =>
    obtain ⟨ha1, ha2⟩ := h a (List.mem_cons_self a l)
    have hrest : ∀ s ∈ l, trimS s = s ∧ s ≠ "" :=
      fun s hs => h s (List.mem_cons_of_mem a hs)
    unfold collectExisting
    simp only [List.filterMap_cons, ha1]
    rw [if_neg ha2]
    cases hex : ex a with
    | true =>
      simp only [if_pos rfl, List.filter_cons, hex, if_true]
      rw [← collectExisting, ih hrest]
    | false =>
      simp only [Bool.false_eq_true, if_false, List.filter_cons, hex]
      rw [← collectExisting, ih hrest]

theorem collectExisting_eq_self (ex : String → Bool) (l : List String)
    (h : ∀ s ∈ l, trimS s = s ∧ s ≠ "" ∧ ex s = true) :
    collectExisting ex l = l := by
  rw [collectExisting_eq_filter ex l (fun s hs => ⟨(h s hs).1, (h s hs).2.1⟩)]
  exact List.filter_eq_self.mpr (fun s hs => (h s hs).2.2)

theorem resolveFiles_mem (ex : String → Bool) (l : List String)
    (h : ∀ s ∈ l, trimS s = s ∧ s ≠ "" ∧ ex s = true) (x : String) :
    x ∈ resolveFiles ex l ↔ x ∈ l := by
  unfold resolveFiles
  rw [(sortByName_perm _).mem_iff, dedupFirst_mem, collectExisting_eq_self ex l h]

theorem resolveFiles_ne_nil (ex : String → Bool) (l : List String)
    (h : ∀ s ∈ l, trimS s = s ∧ s ≠ "" ∧ ex s = true) (hne : l ≠ []) :
    resolveFiles ex l ≠ [] := by
  intro hcontra
  obtain ⟨a, ha⟩ := List.exists_mem_of_ne_nil l hne
  have hmem := (resolveFiles_mem ex l h a).mpr ha
  rw [hcontra] at hmem
  exact (List.not_mem_nil a) hmem

theorem leaderCheck_abstain (ex : String → Bool) (env : LaunchEnv) (f : Bool)
    (now : ℤ) (st : SessionState)
    (h : st.launcherFlag = true ∨ st.timestamp = none ∨
      st.timestamp = some none ∨
      ∃ q, st.timestamp = some (some q) ∧ now - q < quiesceQ) :
    leaderCheck ex env f now st = ⟨st, none, false⟩ := by
  unfold leaderCheck
  rcases h with h | h | h | ⟨q, h, hq⟩
  · rw [if_pos h]
  · cases hf : st.launcherFlag
    · simp only [Bool.false_eq_true, if_false, h]
    · simp
  · cases hf : st.launcherFlag
    · simp only [Bool.false_eq_true, if_false, h]
    · simp
  · cases hf : st.launcherFlag
    · simp only [Bool.false_eq_true, if_false, h, if_pos hq]
    · simp

theorem leaderCheck_complete (ex : String → Bool) (env : LaunchEnv)
    (now q : ℤ) (st : SessionState) (lines : List String)
    (hf : st.launcherFlag = false) (hts : st.timestamp = some (some q))
    (hq : quiesceQ ≤ now - q) (hc : st.collection = some lines) :
    leaderCheck ex env false now st =
      ⟨initState,
        if 1 ≤ (resolveFiles ex lines).length && env.pywExists &&
            env.mergeScriptExists
          then some (resolveFiles ex lines) else none,
        true⟩ := by
  unfold leaderCheck
  rw [hf]
  simp only [Bool.false_eq_true, if_false, hts, hc]
  rw [if_neg (not_lt.mpr hq)]
  by_cases h1 : 1 ≤ (resolveFiles ex lines).length
  · rw [if_pos h1]
    simp only [decide_eq_true h1, Bool.true_and]
    cases hp : env.pywExists <;> cases hm : env.mergeScriptExists <;>
      simp [initState]
  · rw [if_neg h1]
    simp only [decide_eq_false h1, Bool.false_and, Bool.false_eq_true, if_false,
      initState]

theorem leaderCheck_claim_fault (ex : String → Bool) (env : LaunchEnv)
    (now q : ℤ) (st : SessionState)
    (hf : st.launcherFlag = false) (hts : st.timestamp = some (some q))
    (hq : quiesceQ ≤ now - q) :
    leaderCheck ex env true now st =
      ⟨⟨st.collection, st.timestamp, true⟩, none, true⟩ := by
  unfold leaderCheck
  rw [hf]
  simp only [Bool.false_eq_true, if_false, hts]
  rw [if_neg (not_lt.mpr hq)]
  cases hc : st.collection <;> rfl

theorem leaderCheck_claimed_true (ex : String → Bool) (env : LaunchEnv)
    (f : Bool) (now q : ℤ) (st : SessionState)
    (hf : st.launcherFlag = false) (hts : st.timestamp = some (some q))
    (hq : quiesceQ ≤ now - q) :
    (leaderCheck ex env f now st).claimed = true := by
  unfold leaderCheck
  rw [hf]
  simp only [Bool.false_eq_true, if_false, hts]
  rw [if_neg (not_lt.mpr hq)]
  cases hc : st.collection with
  | none => cases f <;> rfl
  | some lines =>
    cases f
    · simp only
      split
      · split
        · rfl
        · rfl
      · rfl
    · rfl

theorem leaderCheck_launch_state (ex : String → Bool) (env : LaunchEnv)
    (f : Bool) (now : ℤ) (st : SessionState) :
    (leaderCheck ex env f now st).launch = none ∨
    (leaderCheck ex env f now st).state = initState := by
  unfold leaderCheck
  split
  · exact Or.inl rfl
  · split
    · exact Or.inl rfl
    · exact Or.inl rfl
    · split
      · exact Or.inl rfl
      · split
        · exact Or.inl rfl
        · exact Or.inl rfl
        · dsimp only
          split
          · split
            · exact Or.inr rfl
            · exact Or.inr rfl
          · exact Or.inr rfl

/-! ## Claim theorems -/

/-- C3: When an instance re-acquires the lock for leader election, it
writes the launcher flag iff the flag is absent, the timestamp file parses
as a number, and at least `quiesceQ` has elapsed since the recorded
last-update time; in every abstain case — flag present, timestamp file
missing, timestamp malformed, or wave still fresh — it returns without
mutating or clearing any session state and without launching. -/
theorem leader_election_claim_iff (ex : String → Bool) (env : LaunchEnv)
    (f : Bool) (now : ℤ) (st : SessionState) :
    ((leaderCheck ex env f now st).claimed = true ↔
      st.launcherFlag = false ∧
      ∃ q, st.timestamp = some (some q) ∧ quiesceQ ≤ now - q) ∧
    ((leaderCheck ex env f now st).claimed = false →
      leaderCheck ex env f now st = ⟨st, none, false⟩) := by
  cases hf : st.launcherFlag with
  | true =>
    rw [leaderCheck_abstain ex env f now st (Or.inl hf)]
    simp [hf]
  | false =>
    rcases hts : st.timestamp with _ | (_ | q)
    · rw [leaderCheck_abstain ex env f now st (Or.inr (Or.inl hts))]
      simp [hts]
    · rw [leaderCheck_abstain ex env f now st (Or.inr (Or.inr (Or.inl hts)))]
      simp [hts]
    · by_cases hq : now - q < quiesceQ
      · rw [leaderCheck_abstain ex env f now st
          (Or.inr (Or.inr (Or.inr ⟨q, hts, hq⟩)))]
        constructor
        · constructor
          · intro hcl
            exact absurd hcl (by simp)
          · rintro ⟨-, qq, hqq, hle⟩
            rw [Option.some.injEq, Option.some.injEq] at hqq
            exact absurd hle (by omega)
        · intro _
          rfl
      · have hcl := leaderCheck_claimed_true ex env f now q st hf hts
          (not_lt.mp hq)
        refine ⟨⟨fun _ => ⟨rfl, q, rfl, not_lt.mp hq⟩, fun _ => hcl⟩, ?_⟩
        intro hfalse
        rw [hcl] at hfalse
        simp at hfalse

/-- C3 witness: concrete quiescent state with an intact timestamp; the
instance claims leadership. -/
theorem leader_election_claim_iff_witness :
    (leaderCheck (fun _ => true) ⟨true, true⟩ false 1000
      ⟨some ["/sel/a.pdf"], some (some 0), false⟩).claimed = true :=
  ((leader_election_claim_iff (fun _ => true) ⟨true, true⟩ false 1000
    ⟨some ["/sel/a.pdf"], some (some 0), false⟩).1).mpr
      ⟨rfl, 0, rfl, by decide⟩

/-- C4: The leader's cleanup deletes all session-state files (a missing
file is not an error) before any external process is spawned — whenever a
launch happens the state left behind is the empty one — and after a leader
completes cleanup (claim followed by a successful collection read), no
session-state files remain. -/
theorem cleanup_before_spawn (ex : String → Bool) (env : LaunchEnv)
    (f : Bool) (now q : ℤ) (st : SessionState) (lines : List String) :
    (∀ args, (leaderCheck ex env f now st).launch = some args →
      (leaderCheck ex env f now st).state = initState) ∧
    (st.launcherFlag = false → st.timestamp = some (some q) →
      quiesceQ ≤ now - q → st.collection = some lines → f = false →
      (leaderCheck ex env f now st).state = initState) := by
  constructor
  · intro args hargs
    rcases leaderCheck_launch_state ex env f now st with h | h
    · rw [h] at hargs
      exact absurd hargs (by simp)
    · exact h
  · intro h1 h2 h3 h4 h5
    subst h5
    rw [leaderCheck_complete ex env now q st lines h1 h2 h3 h4]

/-- C4 witness: concrete completed-leader run; no session files remain. -/
theorem cleanup_before_spawn_witness :
    (leaderCheck (fun _ => true) ⟨true, true⟩ false 1000
      ⟨some ["/sel/a.pdf"], some (some 0), false⟩).state = initState :=
  (cleanup_before_spawn (fun _ => true) ⟨true, true⟩ false 1000 0
    ⟨some ["/sel/a.pdf"], some (some 0), false⟩ ["/sel/a.pdf"]).2
    rfl rfl (by decide) rfl rfl

/-- C5: In the completed-leader path (launch environment present), if the
resolved list is non-empty the external merge engine is started with the
resolved path list as its invocation arguments; if the resolved list is
empty, leadership still completes with the state cleared but the launch
step is skipped. -/
theorem leader_launch_decision (ex : String → Bool) (env : LaunchEnv)
    (now q : ℤ) (st : SessionState) (lines : List String)
    (hf : st.launcherFlag = false) (hts : st.timestamp = some (some q))
    (hq : quiesceQ ≤ now - q) (hc : st.collection = some lines)
    (hp : env.pywExists = true) (hm : env.mergeScriptExists = true) :
    (leaderCheck ex env false now st).state = initState ∧
    (leaderCheck ex env false now st).launch =
      (if resolveFiles ex lines = [] then none
       else some (resolveFiles ex lines)) := by
  rw [leaderCheck_complete ex env now q st lines hf hts hq hc]
  refine ⟨rfl, ?_⟩
  by_cases hres : resolveFiles ex lines = []
  · rw [if_pos hres]
    simp [hres]
  · rw [if_neg hres]
    have h1 : 1 ≤ (resolveFiles ex lines).length := by
      cases hl : resolveFiles ex lines with
      | nil => exact absurd hl hres
      | cons a l => simp
    simp [h1, hp, hm]

/-- C5 witness: empty resolved list (the registered path vanished):
leadership completes, state cleared, no launch. -/
theorem leader_launch_decision_witness :
    (leaderCheck (fun _ => false) ⟨true, true⟩ false 1000
      ⟨some ["/sel/a.pdf"], some (some 0), false⟩).state = initState ∧
    (leaderCheck (fun _ => false) ⟨true, true⟩ false 1000
      ⟨some ["/sel/a.pdf"], some (some 0), false⟩).launch = none := by
  have h := leader_launch_decision (fun _ => false) ⟨true, true⟩ 1000 0
    ⟨some ["/sel/a.pdf"], some (some 0), false⟩ ["/sel/a.pdf"]
    rfl rfl (by decide) rfl rfl rfl
  refine ⟨h.1, ?_⟩
  rw [h.2]
  decide

/-- C7: Each registration, inside its single lock acquisition, performs
exactly these state mutations and no others: it appends the given path as
one (newline-terminated) line to the collection file, overwrites the
timestamp file with the current time, and deletes the launcher flag; the
three fields are the whole of the session state. -/
theorem registration_mutations (path : String) (now : ℤ) (st : SessionState) :
    (register path now st).collection =
      some (st.collection.getD [] ++ [path]) ∧
    (register path now st).timestamp = some (some now) ∧
    (register path now st).launcherFlag = false :=
  ⟨rfl, rfl, rfl⟩

/-- C8 as stated is false on the code: line 26
(`if not file_path.exists(): return`) makes `main` return before
registering anything when the input path does not exist at invocation
time. Concrete run: the input path does not exist; nothing is registered
and the session state is untouched. -/
theorem registration_checks_existence_cex :
    (mainRun (some "/sel/ghost.pdf")
      ⟨fun _ => false, fun _ => true, ⟨true, true⟩, true, true, false, 0,
        1000⟩ initState).registered = false ∧
    (mainRun (some "/sel/ghost.pdf")
      ⟨fun _ => false, fun _ => true, ⟨true, true⟩, true, true, false, 0,
        1000⟩ initState).state = initState := by
  exact ⟨rfl, rfl⟩

/-- C8 amended: registration validates existence of its input path: a
nonexistent path makes `main` return immediately with no writes at all,
while an existing path (with the lock acquired) is registered; existence
is additionally re-validated later by the eventual leader during
resolution. -/
theorem registration_checks_existence (p : String) (env : RunEnv)
    (st : SessionState) :
    (env.exReg p = false → mainRun (some p) env st = ⟨st, none, false⟩) ∧
    (env.exReg p = true → env.lockAcq1 = true →
      (mainRun (some p) env st).registered = true) := by
  constructor
  · intro h
    simp [mainRun, h]
  · intro h hl
    cases h2 : env.lockAcq2 <;> simp [mainRun, h, hl, h2]

/-- C8 amended witness: nonexistent path at a concrete environment. -/
theorem registration_checks_existence_witness :
    mainRun (some "/sel/new.pdf")
      ⟨fun _ => false, fun _ => true, ⟨true, true⟩, true, true, false, 0,
        1000⟩ initState = ⟨initState, none, false⟩ :=
  (registration_checks_existence "/sel/new.pdf"
    ⟨fun _ => false, fun _ => true, ⟨true, true⟩, true, true, false, 0,
      1000⟩ initState).1 rfl

/-- C9: If the collection read fails after the launcher flag has been
written, `main` returns with the flag still present, the collection and
timestamp files not deleted, and no merge engine launched; a subsequent
registration resets the stale flag and timestamp. -/
theorem claim_then_read_failure (ex : String → Bool) (env : LaunchEnv)
    (now q : ℤ) (st : SessionState)
    (hf : st.launcherFlag = false) (hts : st.timestamp = some (some q))
    (hq : quiesceQ ≤ now - q) :
    (leaderCheck ex env true now st).state.launcherFlag = true ∧
    (leaderCheck ex env true now st).state.collection = st.collection ∧
    (leaderCheck ex env true now st).state.timestamp = st.timestamp ∧
    (leaderCheck ex env true now st).launch = none ∧
    (∀ p t, (register p t (leaderCheck ex env true now st).state).launcherFlag
        = false ∧
      (register p t (leaderCheck ex env true now st).state).timestamp =
        some (some t)) := by
  rw [leaderCheck_claim_fault ex env now q st hf hts hq]
  exact ⟨rfl, rfl, rfl, rfl, fun p t => ⟨rfl, rfl⟩⟩

/-- C9 witness: concrete quiescent state with a collection-read fault. -/
theorem claim_then_read_failure_witness :
    (leaderCheck (fun _ => true) ⟨true, true⟩ true 1000
      ⟨some ["/sel/a.pdf"], some (some 0), false⟩).state.launcherFlag =
        true ∧
    (leaderCheck (fun _ => true) ⟨true, true⟩ true 1000
      ⟨some ["/sel/a.pdf"], some (some 0), false⟩).launch = none := by
  have h := claim_then_read_failure (fun _ => true) ⟨true, true⟩ 1000 0
    ⟨some ["/sel/a.pdf"], some (some 0), false⟩ rfl rfl (by decide)
  exact ⟨h.1, h.2.2.2.1⟩

/-- C10: After a leader completes (claim, read, cleanup), the launcher
flag is absent but the timestamp file is absent too, so any later
leadership check of the same wave fails its timestamp read and abstains:
cleanup deleting the flag marker cannot cause a second launch. -/
theorem post_cleanup_abstains (ex ex₂ : String → Bool)
    (env env₂ : LaunchEnv) (f₂ : Bool) (now now₂ q : ℤ)
    (st : SessionState) (lines : List String)
    (hf : st.launcherFlag = false) (hts : st.timestamp = some (some q))
    (hq : quiesceQ ≤ now - q) (hc : st.collection = some lines) :
    (leaderCheck ex env false now st).state.launcherFlag = false ∧
    (leaderCheck ex env false now st).state.timestamp = none ∧
    leaderCheck ex₂ env₂ f₂ now₂ (leaderCheck ex env false now st).state =
      ⟨(leaderCheck ex env false now st).state, none, false⟩ := by
  rw [leaderCheck_complete ex env now q st lines hf hts hq hc]
  exact ⟨rfl, rfl,
    leaderCheck_abstain ex₂ env₂ f₂ now₂ initState (Or.inr (Or.inl rfl))⟩

/-- C10 witness: concrete completed wave followed by a late sibling check. -/
theorem post_cleanup_abstains_witness :
    leaderCheck (fun _ => true) ⟨true, true⟩ false 1200
      (leaderCheck (fun _ => true) ⟨true, true⟩ false 1000
        ⟨some ["/sel/a.pdf"], some (some 0), false⟩).state =
      ⟨(leaderCheck (fun _ => true) ⟨true, true⟩ false 1000
        ⟨some ["/sel/a.pdf"], some (some 0), false⟩).state, none, false⟩ :=
  (post_cleanup_abstains (fun _ => true) (fun _ => true) ⟨true, true⟩
    ⟨true, true⟩ false 1000 1200 0
    ⟨some ["/sel/a.pdf"], some (some 0), false⟩ ["/sel/a.pdf"]
    rfl rfl (by decide) rfl).2.2

/-- C2: The leader's resolution of a raw snapshot equals the spec's
pipeline — filter to currently existing paths, stable dedup preserving
first occurrence, sort by case-insensitive filename — on any snapshot
whose lines are as registration writes them (no surrounding whitespace,
nonempty); and the spec's example holds: `b.pdf, a.pdf, c.pdf` registered
in that order resolve to `a.pdf, b.pdf, c.pdf`. -/
theorem resolution_matches_spec (ex : String → Bool) (raw : List String)
    (hclean : ∀ s ∈ raw, trimS s = s ∧ s ≠ "") :
    resolveFiles ex raw = specResolve ex raw ∧
    resolveFiles (fun _ => true) ["b.pdf", "a.pdf", "c.pdf"] =
      ["a.pdf", "b.pdf", "c.pdf"] := by
  constructor
  · unfold resolveFiles specResolve
    rw [collectExisting_eq_filter ex raw hclean]
  · decide

/-- C2 witness: concrete registration-order snapshot. -/
theorem resolution_matches_spec_witness :
    resolveFiles (fun _ => true) ["/sel/b.pdf", "/sel/a.pdf", "/sel/c.pdf"] =
      specResolve (fun _ => true)
        ["/sel/b.pdf", "/sel/a.pdf", "/sel/c.pdf"] :=
  (resolution_matches_spec (fun _ => true)
    ["/sel/b.pdf", "/sel/a.pdf", "/sel/c.pdf"] (by decide)).1

/-- C6 as stated is false on the code: the leader-election phase
re-acquires the same advisory lock (line 50) and can also time out there;
an instance whose second acquisition times out has already appended to the
collection and overwritten the timestamp in its first critical section, so
"cannot acquire the lock within its timeout" does not imply zero writes.
Concrete run: first acquisition succeeds, second times out — no launch,
but the registration writes remain. -/
theorem lock_timeout_zero_writes_cex :
    (mainRun (some "/sel/a.pdf")
      ⟨fun _ => true, fun _ => true, ⟨true, true⟩, true, false, false, 0,
        1000⟩ initState).launch = none ∧
    (mainRun (some "/sel/a.pdf")
      ⟨fun _ => true, fun _ => true, ⟨true, true⟩, true, false, false, 0,
        1000⟩ initState).state.collection = some ["/sel/a.pdf"] ∧
    (mainRun (some "/sel/a.pdf")
      ⟨fun _ => true, fun _ => true, ⟨true, true⟩, true, false, false, 0,
        1000⟩ initState).state ≠ initState := by
  refine ⟨rfl, rfl, ?_⟩
  decide

/-- C6 amended: an instance whose first lock acquisition times out
abandons silently with zero session-state writes and zero launches; an
instance whose second (leader-election) acquisition times out also
abandons silently and never launches, but the registration writes of its
first critical section remain. -/
theorem lock_timeout_behavior (p : String) (env : RunEnv)
    (st : SessionState) :
    (env.lockAcq1 = false → mainRun (some p) env st = ⟨st, none, false⟩) ∧
    (env.lockAcq2 = false → (mainRun (some p) env st).launch = none ∧
      ((mainRun (some p) env st).state = st ∨
        (mainRun (some p) env st).state = register p env.tReg st)) := by
  constructor
  · intro h
    cases he : env.exReg p <;> simp [mainRun, h, he]
  · intro h
    cases he : env.exReg p
    · simp [mainRun, he]
    · cases h1 : env.lockAcq1 <;> simp [mainRun, h, he, h1]

/-- C6 amended witness: first acquisition times out at a concrete
environment; the run is a no-op. -/
theorem lock_timeout_behavior_witness :
    mainRun (some "/sel/a.pdf")
      ⟨fun _ => true, fun _ => true, ⟨true, true⟩, false, false, false, 0,
        1000⟩ initState = ⟨initState, none, false⟩ :=
  (lock_timeout_behavior "/sel/a.pdf"
    ⟨fun _ => true, fun _ => true, ⟨true, true⟩, false, false, false, 0,
      1000⟩ initState).1 rfl

/-! ## Wave lemmas for C1 -/

theorem filter_split_of_kind_sorted (es : List Event)
    (h : es.Pairwise (fun a b => a.isReg = false → b.isReg = false)) :
    es = es.filter Event.isReg ++ es.filter (fun e => !e.isReg) := by
  induction es with
  | nil => rfl
  | cons e es ih =>
    have hhead : ∀ y ∈ es, e.isReg = false → y.isReg = false :=
      (List.pairwise_cons.mp h).1
    have htail := (List.pairwise_cons.mp h).2
    cases hr : e.isReg with
    | true =>
      simp only [List.filter_cons, hr, Bool.not_true, if_true,
        Bool.false_eq_true, if_false]
      rw [List.cons_append, ← ih htail]
    | false =>
      have hnone : ∀ y ∈ es, y.isReg = false := fun y hy => hhead y hy hr
      simp only [List.filter_cons, hr, Bool.not_false, if_true,
        Bool.false_eq_true, if_false]
      have h1 : es.filter Event.isReg = [] := by
        rw [List.filter_eq_nil_iff]
        intro a ha
        rw [hnone a ha]
        simp
      have h2 : es.filter (fun e => !e.isReg) = es := by
        rw [List.filter_eq_self]
        intro a ha
        rw [hnone a ha]
        rfl
      rw [h1, h2, List.nil_append]

theorem runTrace_regs (paths : Nat → String) (ex : String → Bool)
    (env : LaunchEnv) (R : List Event) (d : Event) (ts : TraceState)
    (hall : ∀ e ∈ R, e.isReg = true) (hne : R ≠ []) :
    R.foldl (stepEvent paths ex env) ts =
      ⟨⟨some (ts.st.collection.getD [] ++ R.map (fun e => paths e.idx)),
        some (some (R.getLastD d).time), false⟩,
       ts.launches, ts.claimants⟩ := by
  induction R generalizing ts d with
  | nil => exact absurd rfl hne
  | cons e R ih =>
    have he : e.isReg = true := hall e (List.mem_cons_self e R)
    obtain ⟨i, t, rfl⟩ : ∃ i t, e = Event.reg i t := by
      cases e with
      | reg i t => exact ⟨i, t, rfl⟩
      | chk i t => simp [Event.isReg] at he
    rw [List.foldl_cons, List.getLastD_cons]
    cases hR : R with
    | nil =>
      subst hR
      simp [stepEvent, register, Event.idx, Event.time, List.getLastD]
    | cons f R2 =>
      rw [← hR]
      have hRne : R ≠ [] := by rw [hR]; exact List.cons_ne_nil f R2
      rw [ih (Event.reg i t)
        (stepEvent paths ex env ts (Event.reg i t))
        (fun x hx => hall x (List.mem_cons_of_mem _ hx)) hRne]
      simp [stepEvent, register, Event.idx]

theorem runTrace_checks_cleared (paths : Nat → String) (ex : String → Bool)
    (env : LaunchEnv) (C : List Event) (L : List (Nat × List String))
    (Cl : List Nat) (hall : ∀ e ∈ C, e.isReg = false) :
    C.foldl (stepEvent paths ex env) ⟨initState, L, Cl⟩ = ⟨initState, L, Cl⟩ := by
  induction C with
  | nil => rfl
  | cons e C ih =>
    have he : e.isReg = false := hall e (List.mem_cons_self e C)
    obtain ⟨i, t, rfl⟩ : ∃ i t, e = Event.chk i t := by
      cases e with
      | reg i t => simp [Event.isReg] at he
      | chk i t => exact ⟨i, t, rfl⟩
    rw [List.foldl_cons]
    have hstep : stepEvent paths ex env ⟨initState, L, Cl⟩ (Event.chk i t) =
        ⟨initState, L, Cl⟩ := by
      simp only [stepEvent]
      rw [leaderCheck_abstain ex env false t initState (Or.inr (Or.inl rfl))]
      simp
    rw [hstep, ih (fun x hx => hall x (List.mem_cons_of_mem _ hx))]

theorem runTrace_checks_claim (paths : Nat → String) (ex : String → Bool)
    (env : LaunchEnv) (C : List Event) (L : List String) (tL : ℤ)
    (hall : ∀ e ∈ C, e.isReg = false)
    (hwit : ∃ e ∈ C, tL + quiesceQ ≤ e.time)
    (hres : resolveFiles ex L ≠ [])
    (hp : env.pywExists = true) (hm : env.mergeScriptExists = true) :
    ∃ i0, C.foldl (stepEvent paths ex env)
        ⟨⟨some L, some (some tL), false⟩, [], []⟩ =
      ⟨initState, [(i0, resolveFiles ex L)], [i0]⟩ := by
  induction C with
  | nil =>
    obtain ⟨e, he, -⟩ := hwit
    exact absurd he (List.not_mem_nil e)
  | cons e C ih =>
    have he : e.isReg = false := hall e (List.mem_cons_self e C)
    obtain ⟨i, t, rfl⟩ : ∃ i t, e = Event.chk i t := by
      cases e with
      | reg i t => simp [Event.isReg] at he
      | chk i t => exact ⟨i, t, rfl⟩
    rw [List.foldl_cons]
    by_cases hlt : t - tL < quiesceQ
    · have hstep : stepEvent paths ex env
          ⟨⟨some L, some (some tL), false⟩, [], []⟩ (Event.chk i t) =
          ⟨⟨some L, some (some tL), false⟩, [], []⟩ := by
        simp only [stepEvent]
        rw [leaderCheck_abstain ex env false t _
          (Or.inr (Or.inr (Or.inr ⟨tL, rfl, hlt⟩)))]
        simp
      rw [hstep]
      refine ih (fun x hx => hall x (List.mem_cons_of_mem _ hx)) ?_
      obtain ⟨e2, he2, htime2⟩ := hwit
      rcases List.mem_cons.mp he2 with rfl | hmem
      · exact absurd htime2 (by simp only [Event.time]; omega)
      · exact ⟨e2, hmem, htime2⟩
    · have h1 : 1 ≤ (resolveFiles ex L).length := by
        cases hl : resolveFiles ex L with
        | nil => exact absurd hl hres
        | cons a l => simp
      have hstep : stepEvent paths ex env
          ⟨⟨some L, some (some tL), false⟩, [], []⟩ (Event.chk i t) =
          ⟨initState, [(i, resolveFiles ex L)], [i]⟩ := by
        simp only [stepEvent]
        rw [leaderCheck_complete ex env t tL
          ⟨some L, some (some tL), false⟩ L rfl rfl (by omega) rfl]
        simp [h1, hp, hm]
      rw [hstep,
        runTrace_checks_cleared paths ex env C [(i, resolveFiles ex L)] [i]
          (fun x hx => hall x (List.mem_cons_of_mem _ hx))]
      exact ⟨i, rfl⟩

/-- C1: For any wave of N coordinator instances whose registrations all
fall within less than the quiescence threshold `quiesceQ` of each other
(and whose leader checks respect the debounce delay `debounceD`), in every
serialization of the critical sections: at most one — indeed exactly one —
instance ever writes the launcher flag, and the merge-engine launch fires
exactly once, carrying exactly the union of all N registered paths. -/
theorem wave_exactly_one_leader
    (N : Nat) (paths : Nat → String) (r c : Nat → ℤ)
    (ex : String → Bool) (env : LaunchEnv) (es : List Event)
    (hN : 1 ≤ N)
    (hclean : ∀ i, i < N → trimS (paths i) = paths i ∧ paths i ≠ "")
    (hex : ∀ i, i < N → ex (paths i) = true)
    (hp : env.pywExists = true) (hm : env.mergeScriptExists = true)
    (hwave : ∀ i, i < N → ∀ j, j < N → r i < r j + quiesceQ)
    (hdeb : ∀ i, i < N → r i + debounceD ≤ c i)
    (hperm : es.Perm
      ((List.range N).map (fun i => Event.reg i (r i)) ++
       (List.range N).map (fun i => Event.chk i (c i))))
    (hsorted : es.Pairwise (fun a b => a.time < b.time)) :
    (runTrace paths ex env es).claimants.length = 1 ∧
    (runTrace paths ex env es).launches.length = 1 ∧
    (∀ s, (∃ pr ∈ (runTrace paths ex env es).launches, s ∈ pr.2) ↔
      ∃ i, i < N ∧ paths i = s) := by
  have memA : ∀ x, x ∈ (List.range N).map (fun i => Event.reg i (r i)) ↔
      ∃ i, i < N ∧ Event.reg i (r i) = x := by
    intro x
    rw [List.mem_map]
    constructor
    · rintro ⟨i, hi, heq⟩
      exact ⟨i, List.mem_range.mp hi, heq⟩
    · rintro ⟨i, hi, heq⟩
      exact ⟨i, List.mem_range.mpr hi, heq⟩
  have memB : ∀ x, x ∈ (List.range N).map (fun i => Event.chk i (c i)) ↔
      ∃ i, i < N ∧ Event.chk i (c i) = x := by
    intro x
    rw [List.mem_map]
    constructor
    · rintro ⟨i, hi, heq⟩
      exact ⟨i, List.mem_range.mp hi, heq⟩
    · rintro ⟨i, hi, heq⟩
      exact ⟨i, List.mem_range.mpr hi, heq⟩
  have hAreg : ∀ x ∈ (List.range N).map (fun i => Event.reg i (r i)),
      x.isReg = true := by
    intro x hx
    obtain ⟨i, hi, heq⟩ := (memA x).mp hx
    rw [← heq]
    rfl
  have hBchk : ∀ x ∈ (List.range N).map (fun i => Event.chk i (c i)),
      x.isReg = false := by
    intro x hx
    obtain ⟨i, hi, heq⟩ := (memB x).mp hx
    rw [← heq]
    rfl
  have hcross : ∀ a ∈ (List.range N).map (fun i => Event.reg i (r i)),
      ∀ b ∈ (List.range N).map (fun i => Event.chk i (c i)),
      a.time < b.time := by
    intro a ha b hb
    obtain ⟨i, hi, hia⟩ := (memA a).mp ha
    obtain ⟨j, hj, hjb⟩ := (memB b).mp hb
    rw [← hia, ← hjb]
    simp only [Event.time]
    have h1 := hwave i hi j hj
    have h2 := hdeb j hj
    have hq : quiesceQ = 500 := rfl
    have hd : debounceD = 600 := rfl
    omega
  have hkind : es.Pairwise (fun a b => a.isReg = false → b.isReg = false) := by
    refine List.Pairwise.imp_of_mem ?_ hsorted
    intro a b ha hb hab hanot
    have haB : a ∈ (List.range N).map (fun i => Event.chk i (c i)) := by
      rcases List.mem_append.mp (hperm.mem_iff.mp ha) with h | h
      · rw [hAreg a h] at hanot
        simp at hanot
      · exact h
    by_cases hbreg : b.isReg = true
    · have hbA : b ∈ (List.range N).map (fun i => Event.reg i (r i)) := by
        rcases List.mem_append.mp (hperm.mem_iff.mp hb) with h | h
        · exact h
        · rw [hBchk b h] at hbreg
          simp at hbreg
      have hba := hcross b hbA a haB
      omega
    · cases hb2 : b.isReg with
      | false => rfl
      | true => exact absurd hb2 hbreg
  have hsplit := filter_split_of_kind_sorted es hkind
  have hA' : (es.filter Event.isReg).Perm
      ((List.range N).map (fun i => Event.reg i (r i))) := by
    have h := hperm.filter Event.isReg
    rw [List.filter_append] at h
    rw [List.filter_eq_self.mpr hAreg] at h
    have hbnone : ∀ x ∈ (List.range N).map (fun i => Event.chk i (c i)),
        ¬(Event.isReg x = true) := by
      intro x hx
      rw [hBchk x hx]
      simp
    rw [List.filter_eq_nil_iff.mpr hbnone, List.append_nil] at h
    exact h
  have hB' : (es.filter (fun e => !e.isReg)).Perm
      ((List.range N).map (fun i => Event.chk i (c i))) := by
    have h := hperm.filter (fun e => !e.isReg)
    rw [List.filter_append] at h
    have hanone : ∀ x ∈ (List.range N).map (fun i => Event.reg i (r i)),
        ¬((!x.isReg) = true) := by
      intro x hx
      rw [hAreg x hx]
      simp
    rw [List.filter_eq_nil_iff.mpr hanone] at h
    have hball : ∀ x ∈ (List.range N).map (fun i => Event.chk i (c i)),
        (!x.isReg) = true := by
      intro x hx
      rw [hBchk x hx]
      rfl
    rw [List.filter_eq_self.mpr hball, List.nil_append] at h
    exact h
  have hA'all : ∀ e ∈ es.filter Event.isReg, e.isReg = true :=
    fun e he => (List.mem_filter.mp he).2
  have hB'all : ∀ e ∈ es.filter (fun x => !x.isReg), e.isReg = false := by
    intro e he
    have h2 := (List.mem_filter.mp he).2
    cases h3 : e.isReg with
    | false => rfl
    | true => rw [h3] at h2; simp at h2
  have hA'len : (es.filter Event.isReg).length = N := by
    rw [hA'.length_eq, List.length_map, List.length_range]
  have hA'ne : es.filter Event.isReg ≠ [] := by
    intro hnil
    rw [hnil] at hA'len
    simp at hA'len
    omega
  have hrun : runTrace paths ex env es =
      (es.filter (fun e => !e.isReg)).foldl (stepEvent paths ex env)
        ((es.filter Event.isReg).foldl (stepEvent paths ex env) initTrace) := by
    unfold runTrace
    nth_rewrite 1 [hsplit]
    rw [List.foldl_append]
  have hmid := runTrace_regs paths ex env (es.filter Event.isReg)
    (Event.reg 0 0) initTrace hA'all hA'ne
  -- The last processed registration is a genuine registration of the wave.
  have hlastmem : (es.filter Event.isReg).getLastD (Event.reg 0 0) ∈
      es.filter Event.isReg := by
    cases hl : es.filter Event.isReg with
    | nil => exact absurd hl hA'ne
    | cons a l =>
      rw [List.getLastD_cons]
      exact List.getLastD_mem_cons l a
  obtain ⟨m, hmN, hmeq⟩ := (memA _).mp (hA'.mem_iff.mp hlastmem)
  have htL : ((es.filter Event.isReg).getLastD (Event.reg 0 0)).time = r m := by
    rw [← hmeq]
    rfl
  have hLprops : ∀ s ∈ (es.filter Event.isReg).map (fun e => paths e.idx),
      trimS s = s ∧ s ≠ "" ∧ ex s = true := by
    intro s hs
    obtain ⟨e, he, hse⟩ := List.mem_map.mp hs
    obtain ⟨i, hi, heq⟩ := (memA e).mp (hA'.mem_iff.mp he)
    have hsi : s = paths i := by
      rw [← hse, ← heq]
      rfl
    rw [hsi]
    exact ⟨(hclean i hi).1, (hclean i hi).2, hex i hi⟩
  have hLne : (es.filter Event.isReg).map (fun e => paths e.idx) ≠ [] := by
    intro hnil
    exact hA'ne (List.map_eq_nil_iff.mp hnil)
  have hres := resolveFiles_ne_nil ex
    ((es.filter Event.isReg).map (fun e => paths e.idx)) hLprops hLne
  have hwit : ∃ e ∈ es.filter (fun x => !x.isReg),
      ((es.filter Event.isReg).getLastD (Event.reg 0 0)).time + quiesceQ ≤
        e.time := by
    refine ⟨Event.chk m (c m), ?_, ?_⟩
    · exact hB'.mem_iff.mpr ((memB _).mpr ⟨m, hmN, rfl⟩)
    · rw [htL]
      simp only [Event.time]
      have h2 := hdeb m hmN
      have hq : quiesceQ = 500 := rfl
      have hd : debounceD = 600 := rfl
      omega
  have hmid2 : (es.filter Event.isReg).foldl (stepEvent paths ex env)
      initTrace =
      ⟨⟨some ((es.filter Event.isReg).map (fun e => paths e.idx)),
        some (some (((es.filter Event.isReg).getLastD
          (Event.reg 0 0)).time)), false⟩, [], []⟩ := by
    rw [hmid]
    rfl
  obtain ⟨i0, hfin⟩ := runTrace_checks_claim paths ex env
    (es.filter (fun x => !x.isReg))
    ((es.filter Event.isReg).map (fun e => paths e.idx))
    (((es.filter Event.isReg).getLastD (Event.reg 0 0)).time)
    hB'all hwit hres hp hm
  have hfinal : runTrace paths ex env es =
      ⟨initState,
       [(i0, resolveFiles ex
          ((es.filter Event.isReg).map (fun e => paths e.idx)))], [i0]⟩ := by
    rw [hrun, hmid2, hfin]
  rw [hfinal]
  refine ⟨rfl, rfl, ?_⟩
  intro s
  have hmemL : s ∈ (es.filter Event.isReg).map (fun e => paths e.idx) ↔
      ∃ i, i < N ∧ paths i = s := by
    constructor
    · intro hs
      obtain ⟨e, he, hse⟩ := List.mem_map.mp hs
      obtain ⟨i, hi, heq⟩ := (memA e).mp (hA'.mem_iff.mp he)
      refine ⟨i, hi, ?_⟩
      rw [← hse, ← heq]
      rfl
    · rintro ⟨i, hi, rfl⟩
      refine List.mem_map.mpr ⟨Event.reg i (r i), ?_, rfl⟩
      exact hA'.mem_iff.mpr ((memA _).mpr ⟨i, hi, rfl⟩)
  rw [← hmemL,
    ← resolveFiles_mem ex ((es.filter Event.isReg).map (fun e => paths e.idx))
      hLprops s]
  constructor
  · rintro ⟨pr, hpr, hspr⟩
    rcases List.mem_cons.mp hpr with rfl | habs
    · exact hspr
    · exact absurd habs (List.not_mem_nil pr)
  · intro hs
    exact ⟨(i0, resolveFiles ex
      ((es.filter Event.isReg).map (fun e => paths e.idx))),
      List.mem_cons_self _ _, hs⟩

/-- C1 witness: a concrete two-instance wave (registrations 100 ms apart,
checks after the 600 ms debounce) in which exactly one instance claims and
exactly one launch fires. -/
theorem wave_exactly_one_leader_witness :
    (runTrace (fun i => if i = 0 then "/sel/b.pdf" else "/sel/a.pdf")
      (fun _ => true) ⟨true, true⟩
      [Event.reg 0 0, Event.reg 1 100, Event.chk 0 700, Event.chk 1 800]
      ).claimants.length = 1 ∧
    (runTrace (fun i => if i = 0 then "/sel/b.pdf" else "/sel/a.pdf")
      (fun _ => true) ⟨true, true⟩
      [Event.reg 0 0, Event.reg 1 100, Event.chk 0 700, Event.chk 1 800]
      ).launches.length = 1 := by
  have h := wave_exactly_one_leader 2
    (fun i => if i = 0 then "/sel/b.pdf" else "/sel/a.pdf")
    (fun i => if i = 0 then (0 : ℤ) else 100)
    (fun i => if i = 0 then (700 : ℤ) else 800)
    (fun _ => true) ⟨true, true⟩
    [Event.reg 0 0, Event.reg 1 100, Event.chk 0 700, Event.chk 1 800]
    (by decide) (by decide) (by decide) rfl rfl (by decide) (by decide)
    (by decide) (by decide)
  exact ⟨h.1, h.2.1⟩

end PdfMergeHandler
